import Mathlib

/-
Verification of the Live Voice Session Engine (repository kryptik-dev/omni).

The TypeScript source is shallowly embedded:
  * pure audio-codec helpers (createAudioData / decodeAudioData) become pure
    functions on lists of rationals (exact arithmetic stands in for IEEE
    floats; every concrete input used below is a dyadic rational, on which
    the JavaScript float computation is exact);
  * the JavaScript Int16Array store is modelled by truncation toward zero
    followed by wrapping into 16 bits, as specified by ECMAScript ToInt16;
  * the React component state (mode, the various refs) becomes an explicit
    EngineState record, and the transport callbacks (onmessage / onclose /
    onerror), the ScriptProcessor capture tick and the user-initiated
    disconnect become an event type with a step function
    EngineState -> LiveEvent -> EngineState x outputs;
  * promise continuations (session.then(...)) are microtasks: they run only
    after the synchronous body of the function that registered them, so the
    teardown model keeps a separate microtask list that is appended after
    the synchronous actions;
  * the awaited capability calls of the tool dispatcher are an environment
    of functions returning Except (exception = rejected promise).
-/

namespace Omni

/-! ## AudioCodec (createAudioData, lines 170-186; decodeAudioData, lines 188-205) -/

/-- Truncation toward zero on rationals, as performed by ECMAScript
ToIntegerOrInfinity when a float is stored into an Int16Array. -/
def jsTrunc (x : ℚ) : ℤ := if x < 0 then ⌈x⌉ else ⌊x⌋

/-- Wrap an integer into the signed 16-bit range, as ECMAScript ToInt16 does. -/
def toInt16 (n : ℤ) : ℤ := (n + 32768) % 65536 - 32768

/-- Encoding of one sample, from createAudioData: clamp to [-1, 1], then
scale by 32768 when negative and by 32767 otherwise, truncating into Int16. -/
def encodeSample (x : ℚ) : ℤ :=
  let s := max (-1) (min 1 x)
  toInt16 (jsTrunc (if s < 0 then s * 32768 else s * 32767))

/-- Little-endian byte pair of a signed 16-bit value, as obtained by viewing
the Int16Array buffer through a Uint8Array. -/
def int16ToBytes (n : ℤ) : List ℕ :=
  let u := (n % 65536).toNat
  [u % 256, u / 256]

/-- Full encoder createAudioData, restricted to its sample-to-bytes payload:
each sample is clamped, scaled asymmetrically and packed little-endian. -/
def createAudioData (data : List ℚ) : List ℕ :=
  (data.map fun q => int16ToBytes (encodeSample q)).flatten

/-- Reassemble a signed 16-bit value from a little-endian byte pair, as the
Int16Array view over the decoded byte buffer does. -/
def bytesToInt16 (lo hi : ℕ) : ℤ :=
  let u := lo % 256 + 256 * (hi % 256)
  if u < 32768 then (u : ℤ) else (u : ℤ) - 65536

/-- Decoding of one 16-bit sample, from decodeAudioData: divide by 32768. -/
def decodeSample (n : ℤ) : ℚ := (n : ℚ) / 32768

/-- Full decoder decodeAudioData, restricted to its bytes-to-samples payload:
consecutive little-endian byte pairs become samples divided by 32768. -/
def decodeAudioData : List ℕ → List ℚ
  | lo :: hi :: rest => decodeSample (bytesToInt16 lo hi) :: decodeAudioData rest
  | _ => []

/-! ## PlaybackScheduler (onmessage audio scheduling, lines 868-878) -/

/-- A scheduled playback slot: computed start time and buffer duration. -/
structure PlaybackSlot where
  start : ℚ
  dur : ℚ
  deriving DecidableEq, Repr

/-- Run of the playback scheduler over a list of decoded-buffer arrivals
(pairs of the output-clock reading now and the buffer duration), threading
nextStartTimeRef: start = max(now, nextAvailable), then
nextAvailable = start + duration. -/
def scheduleRun : ℚ → List (ℚ × ℚ) → List PlaybackSlot
  | _, [] => []
  | next, (now, dur) :: rest =>
    let s := max now next
    ⟨s, dur⟩ :: scheduleRun (s + dur) rest

/-- Successive values taken by nextStartTimeRef during a scheduler run,
including the initial one. -/
def nextAvailableRun : ℚ → List (ℚ × ℚ) → List ℚ
  | next, [] => [next]
  | next, (now, dur) :: rest => next :: nextAvailableRun (max now next + dur) rest

theorem scheduleRun_start_ge (next : ℚ) (events : List (ℚ × ℚ))
    (hd : ∀ p ∈ events, 0 ≤ p.2) :
    ∀ t ∈ scheduleRun next events, next ≤ t.start := by
  induction events generalizing next with
  | nil => intro t ht; simp [scheduleRun] at ht
  | cons e rest ih =>
    intro t ht
    obtain ⟨now, dur⟩ := e
    simp only [scheduleRun, List.mem_cons] at ht
    rcases ht with rfl | ht
    · exact le_max_right _ _
    · have h0 : (0 : ℚ) ≤ dur := hd (now, dur) (List.mem_cons_self _ _)
      have := ih (max now next + dur) (fun p hp => hd p (List.mem_cons_of_mem _ hp)) t ht
      have hnn : next ≤ max now next + dur := by
        have := le_max_right now next
        linarith
      linarith

/-- Head of a scheduler run of nextStartTimeRef values is the initial value. -/
theorem nextAvailableRun_head (m : ℚ) (events : List (ℚ × ℚ)) :
    (nextAvailableRun m events).head? = some m := by
  cases events <;> rfl

/-- C1: the scheduler computes start = max(now, nextAvailable) and sets
nextAvailable = start + duration, so (given nonnegative durations) the
nextAvailable value is monotonically non-decreasing along the run, and the
produced slots are pairwise ordered with slot n+1 starting no earlier than
slot n's computed end time — hence no two slots overlap. -/
theorem playback_scheduler_no_overlap (next : ℚ) (events : List (ℚ × ℚ))
    (hd : ∀ p ∈ events, 0 ≤ p.2) :
    List.Chain' (· ≤ ·) (nextAvailableRun next events) ∧
    List.Pairwise (fun a b => a.start + a.dur ≤ b.start) (scheduleRun next events) := by
  induction events generalizing next with
  | nil => exact ⟨by simp [nextAvailableRun], by simp [scheduleRun]⟩
  | cons e rest ih =>
    obtain ⟨now, dur⟩ := e
    have h0 : (0 : ℚ) ≤ dur := hd (now, dur) (List.mem_cons_self _ _)
    have hrest : ∀ p ∈ rest, 0 ≤ p.2 := fun p hp => hd p (List.mem_cons_of_mem _ hp)
    obtain ⟨ihc, ihp⟩ := ih (max now next + dur) hrest
    constructor
    · show List.Chain' _ (next :: nextAvailableRun (max now next + dur) rest)
      refine List.chain'_cons'.mpr ⟨?_, ihc⟩
      intro y hy
      rw [nextAvailableRun_head] at hy
      obtain rfl : max now next + dur = y := by simpa using hy
      have := le_max_right now next
      linarith
    · show List.Pairwise _ (⟨max now next, dur⟩ :: scheduleRun (max now next + dur) rest)
      refine List.pairwise_cons.mpr ⟨?_, ihp⟩
      intro b hb
      exact scheduleRun_start_ge (max now next + dur) rest hrest b hb

/-- Witness for C1 at a concrete run: two buffers of duration 1, the first
arriving at clock 0 against an idle timeline, the second at clock 2. -/
theorem playback_scheduler_no_overlap_witness :
    List.Chain' (· ≤ ·) (nextAvailableRun 0 [(0, 1), (2, 1)]) ∧
    List.Pairwise (fun a b => a.start + a.dur ≤ b.start)
      (scheduleRun 0 [(0, 1), (2, 1)]) :=
  playback_scheduler_no_overlap 0 [(0, 1), (2, 1)] (by norm_num)

/-! ## AudioCodec round trip -/

/-- The wrap into 16 bits is the identity on the signed 16-bit range. -/
theorem toInt16_eq_self (n : ℤ) (h1 : -32768 ≤ n) (h2 : n ≤ 32767) :
    toInt16 n = n := by
  unfold toInt16
  omega

/-- Every encoded sample lies in the signed 16-bit range. -/
theorem encodeSample_mem_range (x : ℚ) :
    -32768 ≤ encodeSample x ∧ encodeSample x ≤ 32767 := by
  unfold encodeSample
  dsimp only
  set s := max (-1) (min 1 x) with hs
  have hlo : (-1 : ℚ) ≤ s := le_max_left _ _
  have hhi : s ≤ 1 := max_le (by norm_num) (min_le_left _ _)
  split
  · rename_i hneg
    have hceil_lo : (-32768 : ℤ) ≤ ⌈s * 32768⌉ := by
      have h : (-32768 : ℚ) ≤ s * 32768 := by nlinarith
      exact_mod_cast h.trans (Int.le_ceil _)
    have hceil_hi : ⌈s * 32768⌉ ≤ 0 := by
      apply Int.ceil_le.mpr
      push_cast
      nlinarith
    rw [jsTrunc, if_pos (by nlinarith : s * 32768 < 0),
      toInt16_eq_self _ hceil_lo (by omega)]
    omega
  · rename_i hpos
    push_neg at hpos
    have hfloor_lo : (0 : ℤ) ≤ ⌊s * 32767⌋ := by
      apply Int.floor_nonneg.mpr
      nlinarith
    have hfloor_hi : ⌊s * 32767⌋ ≤ 32767 := by
      have : s * 32767 ≤ 32767 := by nlinarith
      calc ⌊s * 32767⌋ ≤ ⌊(32767 : ℚ)⌋ := Int.floor_le_floor this
        _ = 32767 := by norm_num
    rw [jsTrunc, if_neg (by simpa using not_lt.mpr (by nlinarith : (0:ℚ) ≤ s * 32767)),
      toInt16_eq_self _ (by omega) hfloor_hi]
    omega

/-- Little-endian byte packing of an in-range 16-bit value decodes back to it. -/
theorem bytesToInt16_int16ToBytes (n : ℤ) (h1 : -32768 ≤ n) (h2 : n ≤ 32767) :
    bytesToInt16 ((n % 65536).toNat % 256) ((n % 65536).toNat / 256) = n := by
  unfold bytesToInt16
  dsimp only
  split <;> omega

/-- Per-sample round-trip error: a sample in [-1, 1] encoded with the
asymmetric 32767/32768 scaling and decoded by dividing by 32768 is recovered
within strictly less than 1/16384. -/
theorem decodeSample_encodeSample (x : ℚ) (h1 : -1 ≤ x) (h2 : x ≤ 1) :
    |decodeSample (encodeSample x) - x| < 1 / 16384 := by
  have hclamp : max (-1) (min 1 x) = x := by rw [min_eq_right h2, max_eq_right h1]
  rw [abs_lt]
  unfold encodeSample decodeSample
  dsimp only
  rw [hclamp]
  by_cases hneg : x < 0
  · rw [if_pos hneg, jsTrunc, if_pos (by nlinarith : x * 32768 < 0)]
    have hc1 : x * 32768 ≤ (⌈x * 32768⌉ : ℚ) := Int.le_ceil _
    have hc2 : (⌈x * 32768⌉ : ℚ) < x * 32768 + 1 := Int.ceil_lt_add_one _
    have hlo : (-32768 : ℤ) ≤ ⌈x * 32768⌉ := by
      have h : (-32768 : ℚ) ≤ x * 32768 := by nlinarith
      exact_mod_cast h.trans (Int.le_ceil _)
    have hhi : ⌈x * 32768⌉ ≤ 0 := Int.ceil_le.mpr (by push_cast; nlinarith)
    rw [toInt16_eq_self _ hlo (by omega)]
    constructor <;> linarith
  · push_neg at hneg
    rw [if_neg (not_lt.mpr hneg), jsTrunc,
      if_neg (not_lt.mpr (by nlinarith : (0 : ℚ) ≤ x * 32767))]
    have hf1 : (⌊x * 32767⌋ : ℚ) ≤ x * 32767 := Int.floor_le _
    have hf2 : x * 32767 - 1 < (⌊x * 32767⌋ : ℚ) := Int.sub_one_lt_floor _
    have hlo : (0 : ℤ) ≤ ⌊x * 32767⌋ := Int.floor_nonneg.mpr (by nlinarith)
    have hhi : ⌊x * 32767⌋ ≤ 32767 := by
      have h : x * 32767 ≤ ((32767 : ℤ) : ℚ) := by push_cast; nlinarith
      exact (Int.floor_le_floor h).trans_eq (Int.floor_intCast _)
    rw [toInt16_eq_self _ (by omega) hhi]
    constructor <;> linarith

/-- C3 (amended): decode(encode(s)) recovers every sample sequence with
values in [-1, 1] within a per-sample quantization error strictly below
1/16384 (two 16-bit quantization steps), through the little-endian byte
packing and unpacking of the wire format. -/
theorem decode_encode_roundtrip (l : List ℚ) (h : ∀ x ∈ l, -1 ≤ x ∧ x ≤ 1) :
    List.Forall₂ (fun a b => |b - a| < 1 / 16384) l
      (decodeAudioData (createAudioData l)) := by
  induction l with
  | nil => simp [createAudioData, decodeAudioData]
  | cons x rest ih =>
    obtain ⟨hx1, hx2⟩ := h x (List.mem_cons_self _ _)
    have hrest := fun y hy => h y (List.mem_cons_of_mem _ hy)
    have hmem := encodeSample_mem_range x
    have hcreate : createAudioData (x :: rest)
        = (encodeSample x % 65536).toNat % 256
          :: (encodeSample x % 65536).toNat / 256
          :: createAudioData rest := by
      simp [createAudioData, int16ToBytes]
    rw [hcreate]
    simp only [decodeAudioData]
    refine List.Forall₂.cons ?_ (ih hrest)
    rw [bytesToInt16_int16ToBytes _ hmem.1 hmem.2]
    exact decodeSample_encodeSample x hx1 hx2

/-- Witness for C3 (amended) on the concrete sequence [1, -1, 0]. -/
theorem decode_encode_roundtrip_witness :
    List.Forall₂ (fun a b => |b - a| < 1 / 16384) [(1 : ℚ), -1, 0]
      (decodeAudioData (createAudioData [(1 : ℚ), -1, 0])) :=
  decode_encode_roundtrip [(1 : ℚ), -1, 0] (by norm_num)

/-- C3 counterexample: on the single-sample sequence [65535/65536] (a value
exactly representable as an IEEE float) the round trip yields 16383/16384,
an error of 3/65536, strictly larger than the claimed bound 1/32768. -/
theorem decode_encode_error_exceeds_claim :
    decodeAudioData (createAudioData [(65535 : ℚ) / 65536]) = [16383 / 16384] ∧
    1 / 32768 < |(16383 : ℚ) / 16384 - 65535 / 65536| := by
  constructor
  · have henc : encodeSample ((65535 : ℚ) / 65536) = 32766 := by
      unfold encodeSample
      dsimp only
      rw [min_eq_right (by norm_num), max_eq_right (by norm_num),
        if_neg (by norm_num), jsTrunc, if_neg (by norm_num)]
      rw [show ⌊(65535 : ℚ) / 65536 * 32767⌋ = 32766 from by
        rw [Int.floor_eq_iff]
        norm_num]
      rfl
    have hbytes : createAudioData [(65535 : ℚ) / 65536] = [254, 127] := by
      rw [createAudioData]
      simp only [List.map_cons, List.map_nil, henc, List.flatten]
      rfl
    rw [hbytes]
    simp only [decodeAudioData, bytesToInt16, decodeSample]
    norm_num
  · rw [show (16383 : ℚ) / 16384 - 65535 / 65536 = -(3 / 65536) by norm_num,
      abs_neg, abs_of_pos (by norm_num)]
    norm_num

/-! ## ToolDispatcher (onmessage toolCall handling loop, lines 882-985) -/

/-- Inbox item kinds, from InboxItemType. -/
inductive InboxType
  | image
  | search
  | text
  | audio
  deriving DecidableEq, Repr

/-- An inbox item as far as the dispatcher inspects it: its id, kind, role
and string content. -/
structure InboxItem where
  id : String
  type : InboxType
  role : String
  content : String
  deriving DecidableEq, Repr

/-- A function call issued by the remote service. Argument access fc.args.x
is modelled as a total lookup, matching the unchecked property accesses in
the source. -/
structure ToolCall where
  id : String
  name : String
  args : String → String

/-- The response payload of a tool result: the code builds either
an object carrying a result field or one carrying an error field. -/
inductive ToolResponse
  | ok (result : String)
  | err (error : String)
  deriving DecidableEq, Repr

/-- A correlated tool result as sent through sendToolResponse. -/
structure ToolResult where
  id : String
  name : String
  response : ToolResponse

/-- Environment of awaited capability collaborators and ambient state read
by the dispatcher. Except models a rejected promise (a throw inside the
try block); Option models a capability returning nothing usable. -/
structure CapEnv where
  generateImage : String → Except String (Option String)
  editImage : String → String → Except String (Option String)
  searchWeb : String → Except String (String × List (String × String))
  handleCapture : Except String (Option String)
  analyzeImage : String → String → Except String String
  thinkHard : String → Except String String
  inbox : List InboxItem
  editInboxOk : String → String → Bool
  newInboxId : String

/-- Most recent image in the inbox, from
inboxRef.current.slice().reverse().find(i.type === image). -/
def lastImage (inbox : List InboxItem) : Option InboxItem :=
  inbox.reverse.find? fun i => i.type = InboxType.image

/-- Inbox text-message rendering used by read_inbox_messages. -/
def renderInboxMessages (msgs : List InboxItem) : String :=
  String.intercalate "\n\n---\n\n"
    (msgs.map fun m => "[ID: " ++ m.id ++ "] " ++ m.role ++ ": " ++ m.content)

/-- Body of the per-call try block of the dispatcher: the if-chain over the
nine known tool names, each branch producing the result or error payload of
the source; the final else keeps the initial Unknown-tool error value. -/
def runTool (env : CapEnv) (fc : ToolCall) : Except String ToolResponse :=
  if fc.name = "generate_image" then do
    let imgData ← env.generateImage (fc.args "prompt")
    match imgData with
    | some _ => pure (ToolResponse.ok "Okay, I\x27ve sent over the image.")
    | none => pure (ToolResponse.err "Failed to generate image.")
  else if fc.name = "edit_current_image" then
    match lastImage env.inbox with
    | some img => do
      let newImg ← env.editImage img.content (fc.args "instruction")
      match newImg with
      | some _ => pure (ToolResponse.ok "Okay, I\x27ve sent over the edited image.")
      | none => pure (ToolResponse.err "Failed to edit image.")
    | none => pure (ToolResponse.err "No image found in inbox history to edit.")
  else if fc.name = "search_web" then do
    let searchRes ← env.searchWeb (fc.args "query")
    pure (ToolResponse.ok searchRes.1)
  else if fc.name = "see_and_analyze" then do
    let frame ← env.handleCapture
    match frame with
    | some f => do
      let analysis ← env.analyzeImage f (fc.args "question")
      pure (ToolResponse.ok analysis)
    | none => pure (ToolResponse.err "Could not access camera.")
  else if fc.name = "analyze_uploaded_image" then
    match lastImage env.inbox with
    | some img => do
      let analysis ← env.analyzeImage img.content (fc.args "question")
      pure (ToolResponse.ok analysis)
    | none => pure (ToolResponse.err "No uploaded image found in inbox.")
  else if fc.name = "read_inbox_messages" then
    let textMessages := env.inbox.filter fun i => i.type = InboxType.text
    if textMessages.length > 0 then
      pure (ToolResponse.ok ("Found " ++ toString textMessages.length
        ++ " message(s):\n\n" ++ renderInboxMessages textMessages))
    else
      pure (ToolResponse.ok "No text messages found in inbox.")
  else if fc.name = "edit_text_message" then
    if env.editInboxOk (fc.args "messageId") (fc.args "newContent") then
      pure (ToolResponse.ok "Message updated successfully.")
    else
      pure (ToolResponse.err "Message not found or update failed.")
  else if fc.name = "send_text_response" then
    pure (ToolResponse.ok ("Message sent to inbox. ID: " ++ env.newInboxId))
  else if fc.name = "think_deeply" then do
    let thought ← env.thinkHard (fc.args "problem")
    pure (ToolResponse.ok thought)
  else
    pure (ToolResponse.err "Unknown tool")

/-- One dispatched call: the catch clause turns any throw into the
Tool-execution-failed error payload, and the result is always sent with the
call id and name copied verbatim. -/
def dispatchTool (env : CapEnv) (fc : ToolCall) : ToolResult :=
  { id := fc.id
    name := fc.name
    response :=
      match runTool env fc with
      | Except.ok r => r
      | Except.error _ => ToolResponse.err "Tool execution failed" }

/-- The dispatcher loop over a received batch of function calls. -/
def dispatchAll (env : CapEnv) (calls : List ToolCall) : List ToolResult :=
  calls.map (dispatchTool env)

/-- The nine capability names declared in the tool manifest toolsDef. -/
def knownToolNames : List String :=
  ["generate_image", "edit_current_image", "search_web", "see_and_analyze",
   "analyze_uploaded_image", "read_inbox_messages", "edit_text_message",
   "send_text_response", "think_deeply"]

/-- C2: every tool call in a delivered batch yields exactly one tool result
(the result list corresponds one-to-one with the batch), with id and name
preserved verbatim; an unknown capability yields the Unknown-tool error
payload, and a throwing capability yields the Tool-execution-failed error
payload — no call is left unanswered. -/
theorem tool_calls_all_answered (env : CapEnv) (calls : List ToolCall) :
    (dispatchAll env calls).length = calls.length ∧
    List.Forall₂ (fun c r => r.id = c.id ∧ r.name = c.name) calls
      (dispatchAll env calls) ∧
    (∀ c ∈ calls, c.name ∉ knownToolNames →
      (dispatchTool env c).response = ToolResponse.err "Unknown tool") ∧
    (∀ c ∈ calls, ∀ msg, runTool env c = Except.error msg →
      (dispatchTool env c).response = ToolResponse.err "Tool execution failed") := by
  refine ⟨by simp [dispatchAll], ?_, ?_, ?_⟩
  · rw [dispatchAll, List.forall₂_map_right_iff]
    exact List.forall₂_same.mpr fun c _ => ⟨rfl, rfl⟩
  · intro c _ h
    simp only [knownToolNames, List.mem_cons, List.not_mem_nil, or_false,
      not_or] at h
    obtain ⟨h1, h2, h3, h4, h5, h6, h7, h8, h9⟩ := h
    simp [dispatchTool, runTool, h1, h2, h3, h4, h5, h6, h7, h8, h9,
      pure, Except.pure]
  · intro c _ msg hmsg
    simp [dispatchTool, hmsg]

/-- Stub capability environment used to instantiate C2 at concrete inputs. -/
def stubEnv : CapEnv where
  generateImage := fun _ => Except.ok none
  editImage := fun _ _ => Except.ok none
  searchWeb := fun q => Except.ok ("results for " ++ q, [])
  handleCapture := Except.ok none
  analyzeImage := fun _ _ => Except.ok "analysis"
  thinkHard := fun p => Except.error p
  inbox := []
  editInboxOk := fun _ _ => false
  newInboxId := "abc123"

/-- Witness for C2: a batch holding one unknown tool name is answered with
the Unknown-tool error payload, with id and name preserved. -/
theorem tool_calls_all_answered_witness :
    (dispatchTool stubEnv ⟨"id1", "bogus_tool", fun _ => ""⟩).response
      = ToolResponse.err "Unknown tool" :=
  (tool_calls_all_answered stubEnv [⟨"id1", "bogus_tool", fun _ => ""⟩]).2.2.1
    ⟨"id1", "bogus_tool", fun _ => ""⟩ (List.mem_singleton.mpr rfl) (by decide)

/-! ## Session state machine, resources and event step
(connectToLiveAPI lines 634-1017, disconnect lines 1019-1051) -/

/-- Application mode, from the AppMode enum of types.ts. -/
inductive AppMode
  | IDLE
  | LISTENING
  | THINKING
  | SPEAKING
  deriving DecidableEq, Repr

/-- The background-noise source as configured at session start: a looping
buffer source behind a fixed gain node (bgGain.gain.value = 0.018). -/
structure BgNoiseNode where
  loop : Bool
  gain : ℚ
  deriving DecidableEq, Repr

/-- Long-lived engine state: the mode plus the refs owned by the component
(session promise, script processor carrying the capture callback,
microphone source node, microphone stream, background-noise source, output
audio context) and the scheduling clock nextStartTimeRef. The volume signal
is modelled separately by captureVolume and outputVolume below. -/
structure EngineState where
  mode : AppMode
  connected : Bool
  session : Bool
  processor : Bool
  source : Bool
  stream : Bool
  bgNoise : Option BgNoiseNode
  audioCtx : Bool
  nextStartTime : ℚ
  deriving DecidableEq, Repr

/-- State before any connection: every ref null, mode IDLE. -/
def initState : EngineState :=
  { mode := AppMode.IDLE, connected := false, session := false,
    processor := false, source := false, stream := false,
    bgNoise := none, audioCtx := false, nextStartTime := 0 }

/-- Effect of connectToLiveAPI together with its onopen callback on the
engine state: mode LISTENING and connected are set up front, the output
context is created, background noise is started only when the call filter
is enabled and none is running (looping, gain 0.018 = 9/500), and the
capture graph (stream, source node, script processor) exists only when
getUserMedia succeeded. -/
def connectToLiveAPI (micAvailable callFilterEnabled : Bool)
    (st : EngineState) : EngineState :=
  { st with
    mode := AppMode.LISTENING
    connected := true
    session := true
    audioCtx := true
    bgNoise :=
      if callFilterEnabled && st.bgNoise.isNone then
        some { loop := true, gain := 9 / 500 }
      else st.bgNoise
    stream := micAvailable
    source := micAvailable
    processor := micAvailable }

/-- State effect of disconnect(): mode IDLE, connected false, and the
capture processor, microphone source node and stream, background-noise
source and output audio context all released. The session ref itself is
closed but not nulled by the code, and the scheduling clock is untouched. -/
def disconnectStep (st : EngineState) : EngineState :=
  { st with
    mode := AppMode.IDLE
    connected := false
    processor := false
    source := false
    stream := false
    bgNoise := none
    audioCtx := false }

/-- Inbound and local events driving the engine: a decoded model audio
chunk (onmessage audio path, with the output-clock reading and the buffer
duration), a tool-call batch (onmessage toolCall path), the end of a
playback source (source.onended), one capture tick
(processor.onaudioprocess), one sendClientContent text turn, the transport
onclose and onerror callbacks, and a user-initiated disconnect. -/
inductive LiveEvent
  | audioChunk (now dur : ℚ)
  | toolCallEvt (calls : List ToolCall)
  | sourceEnded (now : ℚ)
  | captureFrame (samples : List ℚ)
  | clientTurn (text : String)
  | closeEvt
  | errorEvt
  | userDisconnect

/-- Outbound messages sent to the remote service. -/
inductive OutMsg
  | audioFrame (bytes : List ℕ)
  | textTurn (text : String)
  | toolResultMsg (r : ToolResult)

/-- One engine step, returning the new state and the outbound messages the
handler sends: audio chunks set SPEAKING and schedule playback; tool
batches set THINKING and send one result per call; a finished source
returns to LISTENING only when the output clock is within 0.1 s of
nextStartTime; a capture tick encodes and sends a frame only while the
processor ref is live; a text turn is sent only while the session ref is
live; close, error and disconnect all run the teardown. -/
def step (env : CapEnv) (st : EngineState) :
    LiveEvent → EngineState × List OutMsg
  | LiveEvent.audioChunk now dur =>
    ({ st with
        mode := AppMode.SPEAKING
        nextStartTime := max now st.nextStartTime + dur }, [])
  | LiveEvent.toolCallEvt calls =>
    ({ st with mode := AppMode.THINKING },
      (dispatchAll env calls).map OutMsg.toolResultMsg)
  | LiveEvent.sourceEnded now =>
    if st.nextStartTime - 1 / 10 ≤ now then
      ({ st with mode := AppMode.LISTENING }, [])
    else (st, [])
  | LiveEvent.captureFrame samples =>
    if st.processor then (st, [OutMsg.audioFrame (createAudioData samples)])
    else (st, [])
  | LiveEvent.clientTurn t =>
    if st.session then (st, [OutMsg.textTurn t]) else (st, [])
  | LiveEvent.closeEvt => (disconnectStep st, [])
  | LiveEvent.errorEvt => (disconnectStep st, [])
  | LiveEvent.userDisconnect => (disconnectStep st, [])

/-- Event loop: run a list of events, collecting every outbound message. -/
def run (env : CapEnv) : EngineState → List LiveEvent → EngineState × List OutMsg
  | st, [] => (st, [])
  | st, e :: rest =>
    ((run env (step env st e).1 rest).1,
      (step env st e).2 ++ (run env (step env st e).1 rest).2)

/-- C4: from LISTENING a model audio chunk moves the machine to SPEAKING;
from SPEAKING, when a playback source ends with the output clock within
0.1 s of nextStartTime (the drained condition), the machine returns to
LISTENING; and the transport close and error callbacks move any state to
IDLE, both acting exactly as the teardown, which releases the capture
processor, microphone source node and stream, the background-noise source
and the output audio pipeline. -/
theorem state_machine_transitions (env : CapEnv) (st : EngineState)
    (now dur : ℚ) :
    (st.mode = AppMode.LISTENING →
      (step env st (LiveEvent.audioChunk now dur)).1.mode = AppMode.SPEAKING) ∧
    (st.mode = AppMode.SPEAKING → st.nextStartTime - 1 / 10 ≤ now →
      (step env st (LiveEvent.sourceEnded now)).1.mode = AppMode.LISTENING) ∧
    ((step env st LiveEvent.closeEvt).1 = disconnectStep st ∧
      (step env st LiveEvent.errorEvt).1 = disconnectStep st) ∧
    ((disconnectStep st).mode = AppMode.IDLE ∧
      (disconnectStep st).processor = false ∧
      (disconnectStep st).source = false ∧
      (disconnectStep st).stream = false ∧
      (disconnectStep st).bgNoise = none ∧
      (disconnectStep st).audioCtx = false) := by
  refine ⟨fun _ => rfl, fun _ h => ?_, ⟨rfl, rfl⟩, rfl, rfl, rfl, rfl, rfl, rfl⟩
  simp only [step, if_pos h]

/-- Witness for C4: a freshly connected (LISTENING) engine moves to
SPEAKING on an audio chunk, and from SPEAKING a source ending at clock 5
against nextStartTime 0 returns it to LISTENING. -/
theorem state_machine_transitions_witness :
    (step stubEnv (connectToLiveAPI true true initState)
        (LiveEvent.audioChunk 0 1)).1.mode = AppMode.SPEAKING ∧
    (step stubEnv
        { connectToLiveAPI true true initState with mode := AppMode.SPEAKING }
        (LiveEvent.sourceEnded 5)).1.mode = AppMode.LISTENING :=
  ⟨(state_machine_transitions stubEnv _ 0 1).1 rfl,
    (state_machine_transitions stubEnv _ 5 0).2.1 rfl
      (by norm_num [connectToLiveAPI, initState])⟩

/-- C5 (amended): the arrival of a tool-call batch always sets the mode to
THINKING, whatever the current mode — including SPEAKING. -/
theorem tool_call_always_sets_thinking (env : CapEnv) (st : EngineState)
    (calls : List ToolCall) :
    (step env st (LiveEvent.toolCallEvt calls)).1.mode = AppMode.THINKING :=
  rfl

/-- A connected engine currently playing model audio. -/
def speakingState : EngineState :=
  { connectToLiveAPI true true initState with mode := AppMode.SPEAKING }

/-- C5 counterexample: from SPEAKING, an (empty) tool-call batch forces the
mode away from SPEAKING — setMode(AppMode.THINKING) runs unconditionally in
the toolCall branch of onmessage. -/
theorem tool_call_moves_state_away_from_speaking :
    speakingState.mode = AppMode.SPEAKING ∧
    (step stubEnv speakingState (LiveEvent.toolCallEvt [])).1.mode
      ≠ AppMode.SPEAKING :=
  ⟨rfl, fun h => nomatch h⟩

/-! ## Teardown ordering (disconnect, lines 1019-1051) -/

/-- The individual teardown actions performed by disconnect(). -/
inductive TeardownAction
  | closeTransport
  | detachCapture
  | disconnectMicSource
  | stopStreamTracks
  | stopBgNoise
  | closeOutputCtx
  deriving DecidableEq, Repr

/-- Promise continuation registered by disconnect(): the transport close is
requested through sessionRef.current.then(s.close()), a microtask that the
event loop runs only after the synchronous body of disconnect() finishes. -/
def disconnectMicrotasks (st : EngineState) : List TeardownAction :=
  if st.session then [TeardownAction.closeTransport] else []

/-- Synchronous actions of disconnect(), in source order: null the
onaudioprocess callback and disconnect the processor, disconnect the
microphone source node, stop the stream tracks, stop the background-noise
source, close the output audio context. -/
def disconnectSyncActions (st : EngineState) : List TeardownAction :=
  (if st.processor then [TeardownAction.detachCapture] else [])
    ++ (if st.source then [TeardownAction.disconnectMicSource] else [])
    ++ (if st.stream then [TeardownAction.stopStreamTracks] else [])
    ++ (if st.bgNoise.isSome then [TeardownAction.stopBgNoise] else [])
    ++ (if st.audioCtx then [TeardownAction.closeOutputCtx] else [])

/-- Execution order of disconnect(): all synchronous actions first, then
the deferred transport close. -/
def disconnectTrace (st : EngineState) : List TeardownAction :=
  disconnectSyncActions st ++ disconnectMicrotasks st

/-- A possibly-skipped action is a sublist of the single action. -/
theorem ite_singleton_sublist {α : Type} (p : Prop) [Decidable p] (a : α) :
    List.Sublist (if p then [a] else []) [a] := by
  split
  · exact List.Sublist.refl _
  · exact List.nil_sublist _

/-- C6: from any state, the teardown actions of disconnect() execute as a
sublist of capture-detach, mic-source disconnect, stream stop, noise stop,
output-context close, transport close — so the capture callback is stopped
first among them, the transport close never occurs among the synchronous
steps, and whenever a session exists its close is the very last action. -/
theorem teardown_order (st : EngineState) :
    List.Sublist (disconnectTrace st)
      [TeardownAction.detachCapture, TeardownAction.disconnectMicSource,
        TeardownAction.stopStreamTracks, TeardownAction.stopBgNoise,
        TeardownAction.closeOutputCtx, TeardownAction.closeTransport] ∧
    TeardownAction.closeTransport ∉ disconnectSyncActions st ∧
    (st.session = true →
      (disconnectTrace st).getLast? = some TeardownAction.closeTransport) := by
  have hsync : List.Sublist (disconnectSyncActions st)
      [TeardownAction.detachCapture, TeardownAction.disconnectMicSource,
        TeardownAction.stopStreamTracks, TeardownAction.stopBgNoise,
        TeardownAction.closeOutputCtx] := by
    unfold disconnectSyncActions
    exact ((((ite_singleton_sublist (st.processor = true)
        TeardownAction.detachCapture).append
      (ite_singleton_sublist (st.source = true)
        TeardownAction.disconnectMicSource)).append
      (ite_singleton_sublist (st.stream = true)
        TeardownAction.stopStreamTracks)).append
      (ite_singleton_sublist (st.bgNoise.isSome = true)
        TeardownAction.stopBgNoise)).append
      (ite_singleton_sublist (st.audioCtx = true)
        TeardownAction.closeOutputCtx)
  refine ⟨?_, ?_, ?_⟩
  · unfold disconnectTrace disconnectMicrotasks
    exact hsync.append
      (ite_singleton_sublist (st.session = true) TeardownAction.closeTransport)
  · intro hmem
    have := hsync.subset hmem
    simp at this
  · intro h
    rw [disconnectTrace, disconnectMicrotasks, if_pos h]
    exact List.getLast?_concat _

/-- Witness for C6 at a fully connected engine: the transport close is the
last teardown action actually executed. -/
theorem teardown_order_witness :
    (disconnectTrace (connectToLiveAPI true true initState)).getLast?
      = some TeardownAction.closeTransport :=
  (teardown_order (connectToLiveAPI true true initState)).2.2 rfl

/-! ## EffectChain (onmessage filter graph, lines 837-866;
makeDistortionCurve, lines 147-157) -/

/-- makeDistortionCurve, with the real constant Math.PI abstracted into the
first parameter to keep the definition executable: the sample at index i of
an n-point curve over x = i*2/n - 1 is (3+k)*x*20*(pi/180) / (pi + k*|x|),
the soft-clipping transfer curve loaded into the WaveShaper. -/
def makeDistortionCurve (piApprox k : ℚ) (nSamples i : ℕ) : ℚ :=
  let x : ℚ := i * 2 / nSamples - 1
  (3 + k) * x * 20 * (piApprox / 180) / (piApprox + k * |x|)

/-- Audio-graph nodes created per decoded outbound buffer, labelled with
the parameters configured in the source. -/
inductive AudioNode
  | bufferSource
  | analyserNode
  | highpass (freq : ℚ)
  | lowpass (freq : ℚ)
  | waveshaper (curveAmount : ℚ)
  | gainNode (gain : ℚ)
  | destination
  deriving DecidableEq, Repr

/-- Connections made for one decoded buffer in onmessage: the source is
always tapped by the volume analyser, then, when callFilterEnabled, routed
source → highpass 300 → waveshaper (curve from makeDistortionCurve(5)) →
lowpass 3400 → gain 0.85 → destination; otherwise source → destination. -/
def buildOutputGraph (callFilterEnabled : Bool) : List (AudioNode × AudioNode) :=
  (AudioNode.bufferSource, AudioNode.analyserNode)
    :: (if callFilterEnabled then
        [(AudioNode.bufferSource, AudioNode.highpass 300),
          (AudioNode.highpass 300, AudioNode.waveshaper 5),
          (AudioNode.waveshaper 5, AudioNode.lowpass 3400),
          (AudioNode.lowpass 3400, AudioNode.gainNode (17 / 20)),
          (AudioNode.gainNode (17 / 20), AudioNode.destination)]
      else
        [(AudioNode.bufferSource, AudioNode.destination)])

/-- C7: with the phone filter enabled, the decoded buffer is routed
high-pass 300 Hz → saturation (drive 5) → low-pass 3400 Hz → gain 0.85 →
destination, in exactly that order; with it disabled, the source connects
directly to the destination with no intermediate processing node (the
analyser volume tap exists in both cases and does not sit on the signal
path to the destination). -/
theorem phone_filter_chain_order :
    buildOutputGraph true
      = [(AudioNode.bufferSource, AudioNode.analyserNode),
          (AudioNode.bufferSource, AudioNode.highpass 300),
          (AudioNode.highpass 300, AudioNode.waveshaper 5),
          (AudioNode.waveshaper 5, AudioNode.lowpass 3400),
          (AudioNode.lowpass 3400, AudioNode.gainNode (17 / 20)),
          (AudioNode.gainNode (17 / 20), AudioNode.destination)] ∧
    buildOutputGraph false
      = [(AudioNode.bufferSource, AudioNode.analyserNode),
          (AudioNode.bufferSource, AudioNode.destination)] :=
  ⟨rfl, rfl⟩

/-! ## Background noise (connectToLiveAPI noise setup, lines 657-699) -/

/-- Filter state b0..b6 of the pink-noise recursion. -/
structure PinkState where
  b0 : ℚ
  b1 : ℚ
  b2 : ℚ
  b3 : ℚ
  b4 : ℚ
  b5 : ℚ
  b6 : ℚ
  deriving DecidableEq, Repr

/-- One sample of the low-order recursive pink-noise filter driven by a
white-noise input, as in the generation loop. -/
def pinkStep (s : PinkState) (white : ℚ) : ℚ × PinkState :=
  let b0 := 0.99886 * s.b0 + white * 0.0555179
  let b1 := 0.99332 * s.b1 + white * 0.0750759
  let b2 := 0.96900 * s.b2 + white * 0.1538520
  let b3 := 0.86650 * s.b3 + white * 0.3104856
  let b4 := 0.55000 * s.b4 + white * 0.5329522
  let b5 := -0.7616 * s.b5 - white * 0.0168980
  let sample := (b0 + b1 + b2 + b3 + b4 + b5 + s.b6 + white * 0.5362) * 0.11
  (sample,
    { b0 := b0, b1 := b1, b2 := b2, b3 := b3, b4 := b4, b5 := b5,
      b6 := white * 0.115926 })

/-- The noise-buffer synthesis loop: each output sample is the pink sample
plus, when the per-sample crackle draw fires (probability 0.002 in the
source), a random impulse scaled by 0.3; the random draws are supplied as
the input list (white value, crackle fired, impulse value). -/
def noiseSamples : PinkState → List (ℚ × Bool × ℚ) → List ℚ
  | _, [] => []
  | s, (white, crackle, amp) :: rest =>
    (if crackle then (pinkStep s white).1 + amp * 0.3 else (pinkStep s white).1)
      :: noiseSamples (pinkStep s white).2 rest

/-- C8 counterexample: a session started with the call filter disabled is
connected yet has no background-noise source at all, refuting the claim
that the noise bed is mixed for every session. -/
theorem bg_noise_missing_without_filter :
    (connectToLiveAPI true false initState).connected = true ∧
    (connectToLiveAPI true false initState).bgNoise = none :=
  ⟨rfl, rfl⟩

/-- C8 (amended): once a session starts with the phone filter enabled, a
background-noise source exists, looping, at the fixed gain 0.018; every
non-teardown event (audio chunks, tool calls, playback end, capture
frames, text turns) leaves it untouched — independent of speech activity —
and exactly the teardown events (close, error, disconnect) release it. -/
theorem bg_noise_lifecycle (env : CapEnv) (st : EngineState) (mic : Bool)
    (e : LiveEvent) :
    (st.bgNoise = none →
      (connectToLiveAPI mic true st).bgNoise
        = some { loop := true, gain := 9 / 500 }) ∧
    (e ≠ LiveEvent.closeEvt → e ≠ LiveEvent.errorEvt →
      e ≠ LiveEvent.userDisconnect →
      (step env st e).1.bgNoise = st.bgNoise) ∧
    ((step env st LiveEvent.closeEvt).1.bgNoise = none ∧
      (step env st LiveEvent.errorEvt).1.bgNoise = none ∧
      (step env st LiveEvent.userDisconnect).1.bgNoise = none) := by
  refine ⟨?_, ?_, rfl, rfl, rfl⟩
  · intro h
    simp [connectToLiveAPI, h]
  · intro h1 h2 h3
    cases e with
    | audioChunk now dur => rfl
    | toolCallEvt calls => rfl
    | sourceEnded now =>
      simp only [step]
      split <;> rfl
    | captureFrame samples =>
      simp only [step]
      split <;> rfl
    | clientTurn t =>
      simp only [step]
      split <;> rfl
    | closeEvt => exact absurd rfl h1
    | errorEvt => exact absurd rfl h2
    | userDisconnect => exact absurd rfl h3

/-- Witness for C8 (amended): a fresh filtered session has the looping
0.018-gain noise source, and an audio chunk leaves it untouched. -/
theorem bg_noise_lifecycle_witness :
    (connectToLiveAPI true true initState).bgNoise
      = some { loop := true, gain := 9 / 500 } ∧
    (step stubEnv (connectToLiveAPI true true initState)
        (LiveEvent.audioChunk 0 1)).1.bgNoise
      = (connectToLiveAPI true true initState).bgNoise :=
  ⟨(bg_noise_lifecycle stubEnv initState true (LiveEvent.audioChunk 0 1)).1 rfl,
    (bg_noise_lifecycle stubEnv (connectToLiveAPI true true initState) true
        (LiveEvent.audioChunk 0 1)).2.1
      (fun h => nomatch h) (fun h => nomatch h) (fun h => nomatch h)⟩

/-! ## VolumeMeter (capture RMS, lines 768-775; output analysis,
lines 830-835) -/

/-- Capture-path volume: the RMS sqrt(mean(sample^2)) of one capture frame,
published through setVolume while listening. -/
noncomputable def captureVolume (inputData : List ℝ) : ℝ :=
  Real.sqrt ((inputData.map fun s => s * s).sum / inputData.length)

/-- Output-path volume: the mean of the analyser byte-frequency data,
normalized by 255 and then boosted by the factor 8, published through
setVolume every 50 ms while model audio plays. -/
def outputVolume (data : List ℕ) : ℚ :=
  (data.sum : ℚ) / data.length / 255 * 8

/-- C9 counterexample: one full-scale analyser byte publishes the volume 8,
so the output-path volume sample is not a scalar in [0, 1]. -/
theorem output_volume_exceeds_one : 1 < outputVolume [255] := by
  norm_num [outputVolume]

/-- C9 (amended): the capture-path volume is always nonnegative and, for
frames of normalized samples, at most 1; the output-path volume is always
nonnegative and, for analyser bytes (each at most 255), at most 8 — the
8-fold sensitivity boost means it need not stay within [0, 1]. -/
theorem volume_sample_bounds (frame : List ℝ) (data : List ℕ) :
    (0 ≤ captureVolume frame) ∧
    ((∀ s ∈ frame, |s| ≤ 1) → captureVolume frame ≤ 1) ∧
    (0 ≤ outputVolume data) ∧
    ((∀ b ∈ data, b ≤ 255) → outputVolume data ≤ 8) := by
  refine ⟨Real.sqrt_nonneg _, ?_, ?_, ?_⟩
  · intro h
    unfold captureVolume
    apply Real.sqrt_le_one.mpr
    rcases List.eq_nil_or_concat frame with rfl | ⟨l, a, rfl⟩
    · simp
    · simp only [List.concat_eq_append] at h ⊢
      have hlen0 : 0 < (l ++ [a]).length := by simp
      have hlen : (0 : ℝ) < ((l ++ [a]).length : ℝ) := by exact_mod_cast hlen0
      rw [div_le_one hlen]
      have hmap : ∀ y ∈ (l ++ [a]).map fun s => s * s, y ≤ 1 := by
        intro y hy
        obtain ⟨s, hs, rfl⟩ := List.mem_map.mp hy
        have hs2 := abs_le.mp (h s hs)
        nlinarith [hs2.1, hs2.2]
      calc ((l ++ [a]).map fun s => s * s).sum
          ≤ ((l ++ [a]).map fun s => s * s).length • (1 : ℝ) :=
            List.sum_le_card_nsmul _ 1 hmap
        _ = ((l ++ [a]).length : ℝ) := by simp
  · unfold outputVolume
    positivity
  · intro h
    unfold outputVolume
    rcases List.eq_nil_or_concat data with rfl | ⟨l, a, rfl⟩
    · simp
    · simp only [List.concat_eq_append] at h ⊢
      have hlen0 : 0 < (l ++ [a]).length := by simp
      have hlen : (0 : ℚ) < ((l ++ [a]).length : ℚ) := by exact_mod_cast hlen0
      have hsumN : (l ++ [a]).sum ≤ 255 * (l ++ [a]).length := by
        have hle := List.sum_le_card_nsmul (l ++ [a]) 255 h
        rw [smul_eq_mul] at hle
        omega
      have hsum : ((l ++ [a]).sum : ℚ) ≤ 255 * ((l ++ [a]).length : ℚ) := by
        exact_mod_cast hsumN
      have hfrac : ((l ++ [a]).sum : ℚ) / ((l ++ [a]).length : ℚ) ≤ 255 :=
        (div_le_iff₀ hlen).mpr (by linarith)
      have hnn : (0 : ℚ) ≤ ((l ++ [a]).sum : ℚ) / ((l ++ [a]).length : ℚ) := by
        positivity
      calc ((l ++ [a]).sum : ℚ) / ((l ++ [a]).length : ℚ) / 255 * 8
          ≤ 255 / 255 * 8 := by gcongr
        _ = 8 := by norm_num

/-- Witness for C9 (amended): the full-scale one-sample capture frame [1]
meters at most 1, and the full-scale analyser data [255] at most 8. -/
theorem volume_sample_bounds_witness :
    captureVolume [(1 : ℝ)] ≤ 1 ∧ outputVolume [255] ≤ 8 :=
  ⟨(volume_sample_bounds [(1 : ℝ)] [255]).2.1 (by norm_num),
    (volume_sample_bounds [(1 : ℝ)] [255]).2.2.2 (by norm_num)⟩

/-! ## Degraded mode without microphone (getUserMedia catch, lines 701-709;
guarded input setup, lines 763-791) -/

/-- Without a live processor ref, one step never sends an audio frame and
never revives the processor: the capture branch is the only producer of
audio frames and is guarded twice by processorRef. -/
theorem step_no_audio_frame (env : CapEnv) (st : EngineState) (e : LiveEvent)
    (h : st.processor = false) :
    (step env st e).1.processor = false ∧
    ∀ bytes, OutMsg.audioFrame bytes ∉ (step env st e).2 := by
  cases e with
  | audioChunk now dur => exact ⟨h, by simp [step]⟩
  | toolCallEvt calls =>
    refine ⟨h, ?_⟩
    intro bytes hmem
    simp only [step] at hmem
    obtain ⟨r, -, heq⟩ := List.mem_map.mp hmem
    exact nomatch heq
  | sourceEnded now =>
    constructor
    · simp only [step]
      split <;> exact h
    · simp only [step]
      split <;> simp
  | captureFrame samples =>
    simp only [step, h]
    exact ⟨h, by simp⟩
  | clientTurn t =>
    constructor
    · simp only [step]
      split <;> exact h
    · intro bytes
      simp only [step]
      split <;> simp
  | closeEvt => exact ⟨rfl, by simp [step]⟩
  | errorEvt => exact ⟨rfl, by simp [step]⟩
  | userDisconnect => exact ⟨rfl, by simp [step]⟩

/-- Without a live processor ref, no run of events ever sends an audio
frame. -/
theorem run_no_audio_frame (env : CapEnv) (st : EngineState)
    (evs : List LiveEvent) (h : st.processor = false) :
    ∀ bytes, OutMsg.audioFrame bytes ∉ (run env st evs).2 := by
  induction evs generalizing st with
  | nil => simp [run]
  | cons e rest ih =>
    intro bytes
    obtain ⟨hp, hout⟩ := step_no_audio_frame env st e h
    simp only [run, List.mem_append, not_or]
    exact ⟨hout bytes, ih (step env st e).1 hp bytes⟩

/-- C10: when getUserMedia fails, connect still succeeds — the engine is
connected in LISTENING — but no capture processor exists, so no sequence
of subsequent events ever sends an outbound audio frame; inbound model
audio still plays (the machine moves to SPEAKING), tool-call batches are
still answered with one result per call, and text turns are still sent on
the open session. -/
theorem mic_denied_degraded_mode (env : CapEnv) (cf : Bool)
    (evs : List LiveEvent) (now dur : ℚ) (calls : List ToolCall)
    (t : String) :
    (connectToLiveAPI false cf initState).mode = AppMode.LISTENING ∧
    (connectToLiveAPI false cf initState).connected = true ∧
    (connectToLiveAPI false cf initState).processor = false ∧
    (∀ bytes, OutMsg.audioFrame bytes
      ∉ (run env (connectToLiveAPI false cf initState) evs).2) ∧
    (step env (connectToLiveAPI false cf initState)
        (LiveEvent.audioChunk now dur)).1.mode = AppMode.SPEAKING ∧
    (step env (connectToLiveAPI false cf initState)
        (LiveEvent.toolCallEvt calls)).2
      = (dispatchAll env calls).map OutMsg.toolResultMsg ∧
    (step env (connectToLiveAPI false cf initState)
        (LiveEvent.clientTurn t)).2 = [OutMsg.textTurn t] :=
  ⟨rfl, rfl, rfl,
    run_no_audio_frame env (connectToLiveAPI false cf initState) evs rfl,
    rfl, rfl, rfl⟩

/-- Witness for C10 on a concrete run: a mic-denied session fed a capture
tick and a text turn never emits the audio frame the tick would have sent. -/
theorem mic_denied_degraded_mode_witness :
    OutMsg.audioFrame (createAudioData [(1 : ℚ)])
      ∉ (run stubEnv (connectToLiveAPI false true initState)
          [LiveEvent.captureFrame [(1 : ℚ)], LiveEvent.clientTurn "hi"]).2 :=
  (mic_denied_degraded_mode stubEnv true
      [LiveEvent.captureFrame [(1 : ℚ)], LiveEvent.clientTurn "hi"]
      0 0 [] "hi").2.2.2.1 (createAudioData [(1 : ℚ)])

end Omni
